import Mathlib

/-!
Verification of the amppackager core (`main.go`) against its
natural-language specification.

The Go program is shallowly embedded below:

* `Regex`, `derivR`, `fullMatch`, `parseRe`, `regexpFullMatch` model the
  `regexp` usage of `regexpFullMatch` in main.go (the Go code wraps the
  user pattern as `\A(?:pat)\z` and calls `regexp.MatchString`, discarding
  the compile error; since `\A` and `\z` anchor the match to the whole
  string this is exactly full-string matching of the inner pattern,
  and a pattern that fails to compile yields `false`).
* `URL`, `URLPattern`, `URLSet`, `urlMatches`, `parseUrlsMatch`,
  `parseUrls` model the URL-set policy matcher.
* `HttpErr`, `RespState` and its operations model `httpError` and the
  relevant `net/http` response-writer behaviour.
* `validateFetch`, `sanitizeStateful`, `maxBodyLength`, `mkSigner`,
  `servePackager` model the packaging pipeline `Packager.ServeHTTP`,
  with the external collaborators (`url.Parse`, the network fetch, the
  `cachecontrol` library and the `signedexchange` library) supplied as
  oracle inputs in `Oracles`.
* `sha256`, `base64urlEncode`, `base64urlDecode`, `certName`,
  `CertCache`, `certCacheServe` model the certificate publisher.
-/

/-! ## Regular expressions (Brzozowski derivatives over the RE2 subset used) -/

/-- Regex abstract syntax: the subset of Go `regexp` syntax that the
parser below accepts.  `dotR` matches any character other than a
newline, as Go's `.` does by default. -/
inductive Regex where
  | emptyR : Regex
  | epsR : Regex
  | charR (c : Char) : Regex
  | dotR : Regex
  | altR (r1 r2 : Regex) : Regex
  | catR (r1 r2 : Regex) : Regex
  | starR (r : Regex) : Regex
deriving DecidableEq

/-- Does the regex accept the empty string? -/
def nullable : Regex → Bool
  | .emptyR => false
  | .epsR => true
  | .charR _ => false
  | .dotR => false
  | .altR r1 r2 => nullable r1 || nullable r2
  | .catR r1 r2 => nullable r1 && nullable r2
  | .starR _ => true

/-- Brzozowski derivative of a regex by one character. -/
def derivR (r : Regex) (c : Char) : Regex :=
  match r with
  | .emptyR => .emptyR
  | .epsR => .emptyR
  | .charR a => if a = c then .epsR else .emptyR
  | .dotR => if c = '\n' then .emptyR else .epsR
  | .altR r1 r2 => .altR (derivR r1 c) (derivR r2 c)
  | .catR r1 r2 =>
      if nullable r1 then .altR (.catR (derivR r1 c) r2) (derivR r2 c)
      else .catR (derivR r1 c) r2
  | .starR r1 => .catR (derivR r1 c) (.starR r1)

/-- Whole-string regex match, by iterated derivatives. -/
def fullMatch (r : Regex) (s : String) : Bool :=
  nullable (s.toList.foldl derivR r)

/-- Characters with special meaning in Go regexp syntax that the parser
below understands as escapes. -/
def isMeta (c : Char) : Bool :=
  c = '\\' || c = '.' || c = '+' || c = '*' || c = '?' ||
  c = '(' || c = ')' || c = '|' || c = '[' || c = ']' ||
  c = '^' || c = '$'

mutual

/-- Parse an alternation (`a|b`).  Fuelled recursive descent; a `none`
result models a Go `regexp.Compile` error (or an unsupported construct,
which this embedding conservatively treats as a compile failure). -/
def parseAlt : Nat → List Char → Option (Regex × List Char)
  | 0, _ => none
  | f+1, cs =>
    match parseCat f cs with
    | none => none
    | some (r, rest) =>
      match rest with
      | '|' :: rest2 =>
        match parseAlt f rest2 with
        | none => none
        | some (r2, rest3) => some (.altR r r2, rest3)
      | _ => some (r, rest)

/-- Parse a concatenation of repeated atoms. -/
def parseCat : Nat → List Char → Option (Regex × List Char)
  | 0, _ => none
  | f+1, cs =>
    match cs with
    | [] => some (.epsR, [])
    | ')' :: _ => some (.epsR, cs)
    | '|' :: _ => some (.epsR, cs)
    | _ =>
      match parseRep f cs with
      | none => none
      | some (r, rest) =>
        match parseCat f rest with
        | none => none
        | some (r2, rest2) => some (.catR r r2, rest2)

/-- Parse an atom with an optional postfix repetition operator. -/
def parseRep : Nat → List Char → Option (Regex × List Char)
  | 0, _ => none
  | f+1, cs =>
    match parseAtom f cs with
    | none => none
    | some (r, rest) =>
      match rest with
      | '*' :: rest2 => some (.starR r, rest2)
      | '+' :: rest2 => some (.catR r (.starR r), rest2)
      | '?' :: rest2 => some (.altR r .epsR, rest2)
      | _ => some (r, rest)

/-- Parse a single atom: a group, `.`, an escaped metacharacter, or a
literal character. -/
def parseAtom : Nat → List Char → Option (Regex × List Char)
  | 0, _ => none
  | f+1, cs =>
    match cs with
    | [] => none
    | '(' :: '?' :: ':' :: rest =>
      match parseAlt f rest with
      | none => none
      | some (r, rest2) =>
        match rest2 with
        | ')' :: rest3 => some (r, rest3)
        | _ => none
    | '(' :: '?' :: _ => none
    | '(' :: rest =>
      match parseAlt f rest with
      | none => none
      | some (r, rest2) =>
        match rest2 with
        | ')' :: rest3 => some (r, rest3)
        | _ => none
    | '\\' :: c :: rest => if isMeta c then some (.charR c, rest) else none
    | '\\' :: [] => none
    | '.' :: rest => some (.dotR, rest)
    | c :: rest => if isMeta c then none else some (.charR c, rest)

end

/-- Compile a pattern string; `none` models a `regexp` compile error. -/
def parseRe (pattern : String) : Option Regex :=
  match parseAlt (4 * pattern.length + 4) pattern.toList with
  | some (r, []) => some r
  | _ => none

/-- Mirrors `regexpFullMatch` in main.go: the Go code builds
`fullRe := "\A(?:" + pattern + ")\z"` and returns the boolean result of
`regexp.MatchString(fullRe, test)`, discarding the error value.  The
`\A`/`\z` anchors restrict the (otherwise unanchored) search to the
whole test string, so this is full-string matching of `pattern`; a
pattern that does not compile makes `MatchString` return
`(false, error)`, hence `false` here. -/
def regexpFullMatch (pattern : String) (test : String) : Bool :=
  match parseRe pattern with
  | some r => fullMatch r test
  | none => false

/-! ## URL data model and the URL matcher -/

/-- The fields of Go's `url.URL` that `urlMatches` inspects.
`opaquePart` embeds the Go field `Opaque`; `User` is `nil` (`none`)
when no userinfo is present; `EscapedPath` is the value of the
`url.EscapedPath()` method; `RawQuery` the raw query string. -/
structure URL where
  Scheme : String
  opaquePart : String
  User : Option String
  Host : String
  EscapedPath : String
  RawQuery : String
deriving DecidableEq

/-- `URLPattern` from main.go.  In Go, `PathRE` and `QueryRE` are
`*string` that `validateURLPattern` guarantees non-nil (defaulting to
`".*"`); they are embedded as the dereferenced strings. -/
structure URLPattern where
  Scheme : List String
  Domain : String
  PathRE : String
  PathExcludeRE : List String
  QueryRE : String
  ErrorOnStatefulHeaders : Bool
deriving DecidableEq

/-- `URLSet` from main.go. -/
structure URLSet where
  Fetch : URLPattern
  Sign : URLPattern
deriving DecidableEq

/-- `urlMatches` from main.go, line for line: the scheme loop sets
`schemeMatches` when some element of `pattern.Scheme` equals the URL's
scheme; then each early-return check of the source appears as one
conditional. -/
def urlMatches (url : URL) (pattern : URLPattern) : Bool :=
  let schemeMatches :=
    pattern.Scheme.foldl (fun acc scheme => if url.Scheme = scheme then true else acc) false
  if schemeMatches = false then false
  else if url.opaquePart ≠ "" then false
  else if url.User ≠ none then false
  else if url.Host ≠ pattern.Domain then false
  else if regexpFullMatch pattern.PathRE url.EscapedPath = false then false
  else if pattern.PathExcludeRE.any (fun re => regexpFullMatch re url.EscapedPath) then false
  else if regexpFullMatch pattern.QueryRE url.RawQuery = false then false
  else true

theorem schemeFold (l : List String) (s : String) (acc : Bool) :
    l.foldl (fun acc scheme => if s = scheme then true else acc) acc =
      (acc || decide (s ∈ l)) := by
  induction l generalizing acc with
  | nil => simp
  | cons x xs ih =>
    rw [List.foldl_cons, ih]
    by_cases h : s = x
    · simp [h]
    · simp [h]

/-- Characterization of `urlMatches` as the conjunction of the seven
conditions of the spec. -/
theorem urlMatches_iff (u : URL) (p : URLPattern) :
    urlMatches u p = true ↔
      (u.Scheme ∈ p.Scheme ∧ u.opaquePart = "" ∧ u.User = none ∧
       u.Host = p.Domain ∧
       regexpFullMatch p.PathRE u.EscapedPath = true ∧
       (∀ re ∈ p.PathExcludeRE, regexpFullMatch re u.EscapedPath = false) ∧
       regexpFullMatch p.QueryRE u.RawQuery = true) := by
  unfold urlMatches
  simp only [schemeFold, Bool.false_or]
  split_ifs with h1 h2 h3 h4 h5 h6 h7 <;>
    simp_all [List.any_eq_true, Bool.not_eq_true]

/-- C1: `urlMatches(u, p)` returns true iff the URL's scheme is in
`p.Scheme`, the opaque part is empty, userinfo is absent, the host
equals `p.Domain` byte-exactly, `p.PathRE` fully matches the escaped
path, no `p.PathExcludeRE` entry fully matches it, and `p.QueryRE`
fully matches the raw query; in particular path pattern `foo` does not
match path `foobar`, and a URL with non-empty opaque part or present
userinfo never matches any pattern. -/
theorem urlMatches_spec :
    (∀ (u : URL) (p : URLPattern),
      urlMatches u p = true ↔
        (u.Scheme ∈ p.Scheme ∧ u.opaquePart = "" ∧ u.User = none ∧
         u.Host = p.Domain ∧
         regexpFullMatch p.PathRE u.EscapedPath = true ∧
         (∀ re ∈ p.PathExcludeRE, regexpFullMatch re u.EscapedPath = false) ∧
         regexpFullMatch p.QueryRE u.RawQuery = true)) ∧
    (∀ (u : URL) (p : URLPattern), p.PathRE = "foo" → u.EscapedPath = "foobar" →
      urlMatches u p = false) ∧
    (∀ (u : URL) (p : URLPattern), u.opaquePart ≠ "" → urlMatches u p = false) ∧
    (∀ (u : URL) (p : URLPattern), u.User ≠ none → urlMatches u p = false) := by
  refine ⟨urlMatches_iff, ?_, ?_, ?_⟩
  · intro u p hre hpath
    cases hb : urlMatches u p with
    | false => rfl
    | true =>
      have h := (urlMatches_iff u p).mp hb
      rw [hre, hpath] at h
      have : regexpFullMatch "foo" "foobar" = false := by decide
      simp [this] at h
  · intro u p hop
    cases hb : urlMatches u p with
    | false => rfl
    | true =>
      have h := (urlMatches_iff u p).mp hb
      exact absurd h.2.1 hop
  · intro u p hus
    cases hb : urlMatches u p with
    | false => rfl
    | true =>
      have h := (urlMatches_iff u p).mp hb
      exact absurd h.2.2.1 hus

/-- Witness for `urlMatches_spec` at concrete inputs: the `foo` pattern
rejects path `foobar`, a non-empty opaque part rejects, and a present
userinfo rejects. -/
theorem urlMatches_spec_witness :
    urlMatches ⟨"https", "", none, "amp.example", "foobar", ""⟩
        ⟨["https"], "amp.example", "foo", [], ".*", false⟩ = false ∧
    urlMatches ⟨"https", "mailto-like", none, "amp.example", "/a", ""⟩
        ⟨["https"], "amp.example", ".*", [], ".*", false⟩ = false ∧
    urlMatches ⟨"https", "", some "user", "amp.example", "/a", ""⟩
        ⟨["https"], "amp.example", ".*", [], ".*", false⟩ = false :=
  ⟨urlMatches_spec.2.1 _ _ rfl rfl,
   urlMatches_spec.2.2.1 _ _ (by decide),
   urlMatches_spec.2.2.2 _ _ (by decide)⟩

/-- C10 (implicit): `regexpFullMatch` is total — it returns a boolean
for every pattern and test string — and a pattern whose anchored form
fails to compile yields `false` (the compile error is discarded);
consequently `urlMatches` also always returns a boolean. -/
theorem regexpFullMatch_total :
    (∀ pattern test, regexpFullMatch pattern test = true ∨
        regexpFullMatch pattern test = false) ∧
    (∀ pattern test, parseRe pattern = none → regexpFullMatch pattern test = false) ∧
    (∀ (u : URL) (p : URLPattern), urlMatches u p = true ∨ urlMatches u p = false) :=
  ⟨fun pat t => by cases h : regexpFullMatch pat t <;> simp,
   fun pat t h => by simp [regexpFullMatch, h],
   fun u p => by cases h : urlMatches u p <;> simp⟩

/-- Witness for `regexpFullMatch_total`: the non-compiling pattern `(`
yields `false` instead of an error. -/
theorem regexpFullMatch_total_witness : regexpFullMatch "(" "anything" = false :=
  regexpFullMatch_total.2.1 "(" "anything" (by decide)

/-! ## HTTP errors and the response writer -/

/-- `httpError` from main.go (fields `InternalMsg`, `StatusCode`). -/
structure HttpErr where
  InternalMsg : String
  StatusCode : Nat
deriving DecidableEq

/-- `httpError.ExternalMsg` from main.go: the canonical short message
keyed on the status code; any other status yields the empty string. -/
def HttpErr.externalMsg (e : HttpErr) : String :=
  if e.StatusCode = 400 then "400 bad request"
  else if e.StatusCode = 500 then "500 internal server error"
  else if e.StatusCode = 502 then "502 bad gateway"
  else ""

/-- UTF-8-agnostic byte view of an ASCII string (all strings written to
responses here are ASCII). -/
def strBytes (s : String) : List Nat :=
  s.toList.map Char.toNat

/-- The client-visible state of an `http.ResponseWriter`: the status
code actually sent (if the header was flushed), the Content-Type on the
wire, and the accumulated body bytes. -/
structure RespState where
  wroteHeader : Option Nat
  contentType : Option String
  body : List Nat
deriving DecidableEq

/-- The fresh response writer at the start of a request. -/
def emptyResp : RespState := ⟨none, none, []⟩

/-- Models `http.Error(resp, msg, code)`: on an unflushed writer it sets
Content-Type `text/plain`, sends the status code, and writes `msg`
followed by a newline; on a flushed writer the status is already on the
wire and only the text is appended. -/
def httpRespondError (st : RespState) (msg : String) (code : Nat) : RespState :=
  match st.wroteHeader with
  | some _ => { st with body := st.body ++ strBytes (msg ++ "\n") }
  | none =>
      { wroteHeader := some code,
        contentType := some "text/plain; charset=utf-8",
        body := st.body ++ strBytes (msg ++ "\n") }

/-- `httpError.LogAndRespond` from main.go (the log line is not
client-visible and is not modelled). -/
def logAndRespond (e : HttpErr) (st : RespState) : RespState :=
  httpRespondError st e.externalMsg e.StatusCode

/-- Models `resp.Header().Set("Content-Type", v)`: header-map changes
after the header has been flushed are not visible on the wire. -/
def setContentType (st : RespState) (v : String) : RespState :=
  match st.wroteHeader with
  | some _ => st
  | none => { st with contentType := some v }

/-- Models `resp.Write(bs)`: the first write flushes the header with
status 200 if it was not written yet. -/
def respWrite (st : RespState) (bs : List Nat) : RespState :=
  match st.wroteHeader with
  | some _ => { st with body := st.body ++ bs }
  | none => { st with wroteHeader := some 200, body := st.body ++ bs }

/-! ## Response headers and the stateful-header sanitizer -/

/-- An `http.Header` is embedded as an ordered list of (name, value)
pairs with names already in canonical MIME form, as Go's `net/http`
stores them. -/
abbrev Header := List (String × String)

/-- `Header.Get`: the first value stored under the key, or `""` when
the key is absent. -/
def headerGet (hs : Header) (key : String) : String :=
  match hs with
  | [] => ""
  | p :: rest => if p.1 = key then p.2 else headerGet rest key

/-- `Header.Del`: removes every value stored under the key. -/
def headerDel (hs : Header) (key : String) : Header :=
  hs.filter (fun p => p.1 ≠ key)

/-- `statefulResponseHeaders` from main.go.  The Go value is a
`map[string]bool`; its iteration order in `Packager.ServeHTTP` is
unspecified, so the embedding fixes the source's textual order (every
property proved below is independent of the order). -/
def statefulResponseHeaders : List String :=
  ["Authentication-Control", "Authentication-Info", "Optional-WWW-Authenticate",
   "Proxy-Authenticate", "Proxy-Authentication-Info", "Sec-WebSocket-Accept",
   "Set-Cookie", "Set-Cookie2", "SetProfile", "WWW-Authenticate"]

/-- The stateful-header loop of `Packager.ServeHTTP` (main.go lines
351–357): for each listed header, if `errorOnStatefulHeaders` is set
and `Get` returns a non-empty value the loop stops with a 502 naming
the header; otherwise the header is deleted and the loop continues. -/
def sanitizeStateful (errorOn : Bool) : List String → Header → Except String Header
  | [], hs => .ok hs
  | name :: rest, hs =>
    if errorOn && headerGet hs name ≠ "" then .error name
    else sanitizeStateful errorOn rest (headerDel hs name)

/-! ## Fetch validation, body cap, signer -/

/-- `maxBodyLength` from main.go: `4 * 1 << 20` (Go's `*` and `<<` have
equal precedence and associate left, so this is `(4*1) << 20` =
4 MiB; the Lean expression below evaluates to the same 4194304). -/
def maxBodyLength : Nat := 4 * 1 <<< 20

/-- The upstream `http.Response` fields the pipeline reads. -/
structure FetchResponse where
  statusCode : Nat
  header : Header
  body : List Nat
deriving DecidableEq

/-- `validateFetch` from main.go.  The `cachecontrol.CachableResponse`
call on the fetched request/response pair is an external collaborator,
supplied as `cacheCheck`; its argument is the `PrivateCache` option
(the source passes `false`), and it returns either a parse error or
the list of non-cacheable reasons. -/
def validateFetch (resp : FetchResponse)
    (cacheCheck : Bool → Except String (List String)) : Option HttpErr :=
  if resp.statusCode ≠ 200 then some ⟨"Non-OK fetch", 502⟩
  else
    match cacheCheck false with
    | .error _ => some ⟨"Error parsing cache headers", 502⟩
    | .ok nonCachableReasons =>
        if nonCachableReasons.length > 0 then some ⟨"Non-cacheable response", 502⟩
        else none

/-- The `signedexchange.Signer` fields set in main.go lines 377–390,
with times in seconds.  Both `time.Now()` calls are modelled as the
same instant `now`; the source computes `Date = now - 24h` and
`Expires = now + 6*24h`. -/
structure Signer where
  date : Int
  expires : Int
  certUrl : String
  validityUrl : String
deriving DecidableEq

/-- Constructs the signer exactly as main.go does. -/
def mkSigner (now : Int) (certUrl : String) : Signer :=
  { date := now - 24 * 3600,
    expires := now + 6 * 24 * 3600,
    certUrl := certUrl,
    validityUrl := "https://cdn.ampproject.org/null-validity" }

/-! ## URL-set selection -/

/-- The URLSet scan of `parseUrls` (main.go lines 225–230): the sets
are tried in configuration order; the first whose Fetch pattern
matches the fetch URL and whose Sign pattern matches the sign URL
yields the sign URL and its Fetch pattern's `ErrorOnStatefulHeaders`;
if none matches, a 400 policy error results. -/
def parseUrlsMatch (fetchUrl signUrl : URL) : List URLSet → Except HttpErr (URL × Bool)
  | [] => .error ⟨"fetch/sign URLs do not match config", 400⟩
  | pattern :: rest =>
    if urlMatches fetchUrl pattern.Fetch && urlMatches signUrl pattern.Sign then
      .ok (signUrl, pattern.Fetch.ErrorOnStatefulHeaders)
    else parseUrlsMatch fetchUrl signUrl rest

/-- `parseUrls` from main.go: the two `parseUrl` calls (string → URL
parsing via `net/url`, an external collaborator) are supplied as
already-computed results, then the URLSet scan runs. -/
def parseUrls (parsedFetch parsedSign : Except HttpErr URL)
    (urlSets : List URLSet) : Except HttpErr (URL × Bool) :=
  match parsedFetch with
  | .error e => .error e
  | .ok fetchUrl =>
    match parsedSign with
    | .error e => .error e
    | .ok signUrl => parseUrlsMatch fetchUrl signUrl urlSets

/-! ## The packaging pipeline -/

/-- The arguments main.go passes to `signedexchange.NewExchange`: the
sign URL as request URI, the upstream status, the sanitized headers,
and the (truncated) body as payload. -/
structure Exchange where
  requestUri : URL
  responseStatus : Nat
  responseHeader : Header
  payload : List Nat
deriving DecidableEq

/-- Outcomes of the external collaborators of `Packager.ServeHTTP`,
supplied as oracle inputs: the two `parseUrl` results, the network
fetch, the `cachecontrol` check for the fetched pair, whether
`ioutil.ReadAll` succeeds, and the fallible `signedexchange` library
calls.  `writeBytes` is whatever `WriteExchangeFile` wrote into the
`bytes.Buffer` (the full serialization on success, a partial prefix on
failure). -/
structure Oracles where
  parsedFetch : Except HttpErr URL
  parsedSign : Except HttpErr URL
  fetchResult : Except HttpErr FetchResponse
  cacheCheck : Bool → Except String (List String)
  readBodyOk : Bool
  newExchangeErr : Option String
  certUrlResult : Except String String
  now : Int
  addSigErr : Option String
  writeBytes : List Nat
  writeErr : Option String

/-- What one packaging request produced: the client-visible response,
whether the upstream fetch was attempted, the exchange handed to the
signing library (if one was built), and the signer (if constructed). -/
structure ServeOutcome where
  resp : RespState
  fetched : Bool
  exchange : Option Exchange
  signer : Option Signer

/-- `Packager.ServeHTTP` from main.go lines 319–410, stage by stage.
Note the source's serialization-failure branch (lines 397–399) calls
`LogAndRespond` but is missing a `return`, so execution falls through
to the Content-Type `Set` (a no-op on the wire, the header being
flushed) and to `resp.Write(body.Bytes())`, which appends the partial
buffer contents after the 500 message; the embedding reproduces that. -/
def servePackager (urlSets : List URLSet) (o : Oracles) : ServeOutcome :=
  match parseUrls o.parsedFetch o.parsedSign urlSets with
  | .error e => ⟨logAndRespond e emptyResp, false, none, none⟩
  | .ok (signUrl, errorOnStatefulHeaders) =>
    match o.fetchResult with
    | .error e => ⟨logAndRespond e emptyResp, true, none, none⟩
    | .ok fetchResp =>
      match validateFetch fetchResp o.cacheCheck with
      | some e => ⟨logAndRespond e emptyResp, true, none, none⟩
      | none =>
        match sanitizeStateful errorOnStatefulHeaders statefulResponseHeaders
            fetchResp.header with
        | .error name =>
            ⟨logAndRespond ⟨"Fetch response contains stateful header: " ++ name, 502⟩
                emptyResp, true, none, none⟩
        | .ok header2 =>
          match o.readBodyOk with
          | false =>
            ⟨httpRespondError emptyResp "502 bad gateway" 502, true, none, none⟩
          | true =>
            let fetchBody := fetchResp.body.take maxBodyLength
            match o.newExchangeErr with
            | some _ =>
                ⟨logAndRespond ⟨"Error building exchange", 500⟩ emptyResp,
                 true, none, none⟩
            | none =>
              let exchange : Exchange :=
                ⟨signUrl, fetchResp.statusCode, header2, fetchBody⟩
              match o.certUrlResult with
              | .error _ =>
                  ⟨logAndRespond ⟨"Error building cert URL", 500⟩ emptyResp,
                   true, some exchange, none⟩
              | .ok certUrl =>
                let signer := mkSigner o.now certUrl
                match o.addSigErr with
                | some _ =>
                    ⟨logAndRespond ⟨"Error signing exchange", 500⟩ emptyResp,
                     true, some exchange, some signer⟩
                | none =>
                  match o.writeErr with
                  | some _ =>
                      let st := logAndRespond ⟨"Error serializing exchange", 500⟩
                          emptyResp
                      let st := setContentType st "application/signed-exchange;v=b0"
                      let st := respWrite st o.writeBytes
                      ⟨st, true, some exchange, some signer⟩
                  | none =>
                      let st := setContentType emptyResp
                          "application/signed-exchange;v=b0"
                      let st := respWrite st o.writeBytes
                      ⟨st, true, some exchange, some signer⟩

/-! ## Helper lemmas -/

theorem headerGet_del_ne (hs : Header) (d k : String) (h : k ≠ d) :
    headerGet (headerDel hs d) k = headerGet hs k := by
  induction hs with
  | nil => rfl
  | cons p t ih =>
    by_cases hp : p.1 = d
    · have hk : ¬(p.1 = k) := by rw [hp]; exact fun he => h he.symm
      have hdel : headerDel (p :: t) d = headerDel t d := by
        simp [headerDel, List.filter_cons, hp]
      rw [hdel, ih]
      simp [headerGet, hk]
    · have hdel : headerDel (p :: t) d = p :: headerDel t d := by
        simp [headerDel, List.filter_cons, hp]
      rw [hdel]
      by_cases hk : p.1 = k
      · simp [headerGet, hk]
      · simp [headerGet, hk, ih]

theorem headerDel_subset (hs : Header) (d : String) :
    ∀ p ∈ headerDel hs d, p ∈ hs := by
  intro p hp
  exact List.mem_of_mem_filter hp

theorem headerDel_key_gone (hs : Header) (d : String) :
    ∀ p ∈ headerDel hs d, p.1 ≠ d := by
  intro p hp
  have := List.of_mem_filter hp
  simpa using this

theorem sanitize_false_ok (names : List String) (hs : Header) :
    sanitizeStateful false names hs = .ok (names.foldl headerDel hs) := by
  induction names generalizing hs with
  | nil => rfl
  | cons n rest ih => simp [sanitizeStateful, ih]

theorem sanitize_ok_sub (e : Bool) (names : List String) (hs hs' : Header)
    (h : sanitizeStateful e names hs = .ok hs') : ∀ p ∈ hs', p ∈ hs := by
  induction names generalizing hs with
  | nil =>
    simp only [sanitizeStateful, Except.ok.injEq] at h
    subst h; exact fun p hp => hp
  | cons n rest ih =>
    simp only [sanitizeStateful] at h
    split at h
    · exact absurd h (by simp)
    · intro p hp
      exact headerDel_subset hs n p (ih (headerDel hs n) h p hp)

theorem sanitize_ok_deleted (e : Bool) (names : List String) (hs hs' : Header)
    (h : sanitizeStateful e names hs = .ok hs') :
    ∀ name ∈ names, ∀ p ∈ hs', p.1 ≠ name := by
  induction names generalizing hs with
  | nil => intro name hname; exact absurd hname (by simp)
  | cons n rest ih =>
    simp only [sanitizeStateful] at h
    split at h
    · exact absurd h (by simp)
    · intro name hname p hp
      rcases List.mem_cons.mp hname with hn | hr
      · subst hn
        exact headerDel_key_gone hs name p
          (sanitize_ok_sub e rest (headerDel hs name) hs' h p hp)
      · exact ih (headerDel hs n) h name hr p hp

theorem sanitize_true_error (names : List String) (hs : Header)
    (h : ∃ name ∈ names, headerGet hs name ≠ "") :
    ∃ name, sanitizeStateful true names hs = .error name := by
  induction names generalizing hs with
  | nil => rcases h with ⟨name, hmem, _⟩; exact absurd hmem (by simp)
  | cons n rest ih =>
    by_cases hn : headerGet hs n ≠ ""
    · exact ⟨n, by simp [sanitizeStateful, hn]⟩
    · rcases h with ⟨name, hmem, hne⟩
      have hnn : name ≠ n := fun he => hne (he ▸ by simpa using hn)
      have hmem' : name ∈ rest := by
        rcases List.mem_cons.mp hmem with h1 | h1
        · exact absurd h1 hnn
        · exact h1
      have hget : headerGet (headerDel hs n) name ≠ "" := by
        rw [headerGet_del_ne hs n name hnn]; exact hne
      rcases ih (headerDel hs n) ⟨name, hmem', hget⟩ with ⟨m, hm⟩
      refine ⟨m, ?_⟩
      simpa [sanitizeStateful, hn] using hm

theorem parseUrlsMatch_eq (fu su : URL) (sets : List URLSet) :
    parseUrlsMatch fu su sets =
      match sets.find? (fun s => urlMatches fu s.Fetch && urlMatches su s.Sign) with
      | some s => .ok (su, s.Fetch.ErrorOnStatefulHeaders)
      | none => .error ⟨"fetch/sign URLs do not match config", 400⟩ := by
  induction sets with
  | nil => rfl
  | cons p rest ih =>
    simp only [parseUrlsMatch, List.find?_cons]
    by_cases h : (urlMatches fu p.Fetch && urlMatches su p.Sign) = true
    · simp [h]
    · have h' : (urlMatches fu p.Fetch && urlMatches su p.Sign) = false := by
        simpa using h
      simp [h', ih]

/-! ## Concrete fixtures used by witnesses and counterexamples -/

/-- A fetch URL matching the example URLSet. -/
def exFetchUrl : URL := ⟨"https", "", none, "amp.example", "/a", ""⟩

/-- A sign URL matching the example URLSet. -/
def exSignUrl : URL := ⟨"https", "", none, "example.com", "/a", ""⟩

/-- An example URLSet whose fetch pattern sets `ErrorOnStatefulHeaders`. -/
def exUrlSetStrict : URLSet :=
  ⟨⟨["https"], "amp.example", ".*", [], ".*", true⟩,
   ⟨["https"], "example.com", ".*", [], ".*", false⟩⟩

/-- Oracle outcomes for a request that goes through the whole pipeline
successfully, with the given upstream response headers. -/
def exOracles (hdr : Header) : Oracles :=
  { parsedFetch := .ok exFetchUrl,
    parsedSign := .ok exSignUrl,
    fetchResult := .ok ⟨200, hdr, [1, 2, 3]⟩,
    cacheCheck := fun _ => .ok [],
    readBodyOk := true,
    newExchangeErr := none,
    certUrlResult := .ok "https://pkg.example/amppkg/cert/x",
    now := 0,
    addSigErr := none,
    writeBytes := [9, 9],
    writeErr := none }

/-! ## C2: the signature validity window -/

/-- C2 as stated is false: with `Date = now − 24h` and
`Expires = now + 6·24h`, `Expires − Date` is 7·24h = 604800 s, not
6·24h.  Concretely at `now = 0` the difference is 604800 ≠ 518400. -/
theorem signerWindow_counterexample :
    ¬((mkSigner 0 "u").expires - (mkSigner 0 "u").date = 6 * 24 * 3600 ∧
      (mkSigner 0 "u").expires - (mkSigner 0 "u").date ≤ 604800) := by
  intro h
  have := h.1
  simp [mkSigner] at this

/-- C2 amended: for the signer constructed by the pipeline
(`Date = now − 24h`, `Expires = now + 6·24h`, both `time.Now()` calls
modelled as the same instant), `Expires − Date` equals 7·24 hours,
which is exactly 604800 seconds, so the protocol bound
`Expires − Date ≤ 604800 s` is met with equality. -/
theorem signerWindow_amended :
    ∀ (now : Int) (certUrl : String),
      (mkSigner now certUrl).expires - (mkSigner now certUrl).date = 7 * 24 * 3600 ∧
      (mkSigner now certUrl).expires - (mkSigner now certUrl).date ≤ 604800 := by
  intro now certUrl
  constructor <;> simp [mkSigner]

/-! ## C4: URLSet selection -/

/-- C4: the selected URLSet is the first in configuration order whose
Fetch pattern matches the fetch URL and whose Sign pattern matches the
sign URL (the result carries the sign URL and that set's
`ErrorOnStatefulHeaders`); if none matches, the request fails with a
400 policy error, the canonical "400 bad request" body, and no
upstream fetch occurs. -/
theorem urlSetSelection_spec :
    (∀ (fu su : URL) (sets : List URLSet) (s : URLSet),
      sets.find? (fun s => urlMatches fu s.Fetch && urlMatches su s.Sign) = some s →
      parseUrlsMatch fu su sets = .ok (su, s.Fetch.ErrorOnStatefulHeaders)) ∧
    (∀ (fu su : URL) (sets : List URLSet),
      sets.find? (fun s => urlMatches fu s.Fetch && urlMatches su s.Sign) = none →
      parseUrlsMatch fu su sets = .error ⟨"fetch/sign URLs do not match config", 400⟩) ∧
    (∀ (sets : List URLSet) (o : Oracles) (fu su : URL),
      o.parsedFetch = .ok fu → o.parsedSign = .ok su →
      sets.find? (fun s => urlMatches fu s.Fetch && urlMatches su s.Sign) = none →
      (servePackager sets o).fetched = false ∧
      (servePackager sets o).resp.wroteHeader = some 400 ∧
      (servePackager sets o).resp.body = strBytes "400 bad request\n" ∧
      (servePackager sets o).exchange = none) := by
  refine ⟨?_, ?_, ?_⟩
  · intro fu su sets s hfind
    rw [parseUrlsMatch_eq, hfind]
  · intro fu su sets hfind
    rw [parseUrlsMatch_eq, hfind]
  · intro sets o fu su hf hs hnone
    have hperr : parseUrls o.parsedFetch o.parsedSign sets =
        .error ⟨"fetch/sign URLs do not match config", 400⟩ := by
      simp only [parseUrls, hf, hs]
      rw [parseUrlsMatch_eq, hnone]
    have hred : servePackager sets o =
        ⟨logAndRespond ⟨"fetch/sign URLs do not match config", 400⟩ emptyResp,
         false, none, none⟩ := by
      simp only [servePackager, hperr]
    rw [hred]
    exact ⟨rfl, by decide, by decide, rfl⟩

/-- Witness for `urlSetSelection_spec`: the example URLSet is found and
selected for the example URLs, and with no configured URLSet the
request is rejected with 400 before any fetch. -/
theorem urlSetSelection_witness :
    parseUrlsMatch exFetchUrl exSignUrl [exUrlSetStrict] = .ok (exSignUrl, true) ∧
    ((servePackager [] (exOracles [])).fetched = false ∧
     (servePackager [] (exOracles [])).resp.wroteHeader = some 400) := by
  constructor
  · exact urlSetSelection_spec.1 exFetchUrl exSignUrl [exUrlSetStrict] exUrlSetStrict
      (by decide)
  · have h := urlSetSelection_spec.2.2 [] (exOracles []) exFetchUrl exSignUrl rfl rfl rfl
    exact ⟨h.1, h.2.1⟩

/-! ## C5: fetch validation -/

/-- C5: `validateFetch` yields a 502 error whenever the upstream status
is not 200; at status 200 it runs the shared-cache check with
`PrivateCache = false` and yields a 502 error whenever the check
reports a parse error or at least one non-cacheable reason; otherwise
it reports no error (and every error it ever returns carries 502). -/
theorem validateFetch_spec :
    ∀ (resp : FetchResponse) (cc : Bool → Except String (List String)),
      (∀ e, validateFetch resp cc = some e → e.StatusCode = 502) ∧
      (resp.statusCode ≠ 200 → (validateFetch resp cc).isSome = true) ∧
      (∀ msg, resp.statusCode = 200 → cc false = .error msg →
        (validateFetch resp cc).isSome = true) ∧
      (∀ reasons, resp.statusCode = 200 → cc false = .ok reasons → reasons ≠ [] →
        (validateFetch resp cc).isSome = true) ∧
      (validateFetch resp cc = none ↔ resp.statusCode = 200 ∧ cc false = .ok []) := by
  intro resp cc
  by_cases hst : resp.statusCode = 200
  · cases hcc : cc false with
    | error msg => simp_all [validateFetch]
    | ok reasons =>
      cases reasons with
      | nil => simp_all [validateFetch]
      | cons a l => simp_all [validateFetch]
  · simp_all [validateFetch]

/-- Witness for `validateFetch_spec`: a 404 upstream is rejected, and a
200 upstream passing the cache check with no reasons is accepted. -/
theorem validateFetch_witness :
    (validateFetch ⟨404, [], []⟩ (fun _ => .ok [])).isSome = true ∧
    validateFetch ⟨200, [], []⟩ (fun _ => .ok []) = none := by
  constructor
  · exact (validateFetch_spec ⟨404, [], []⟩ (fun _ => .ok [])).2.1 (by decide)
  · exact (validateFetch_spec ⟨200, [], []⟩ (fun _ => .ok [])).2.2.2.2.mpr ⟨rfl, rfl⟩

/-- Every exchange the pipeline hands to the signing library is built
from the matched sign URL, the upstream status, the sanitized headers,
and the body truncated to `maxBodyLength`. -/
theorem servePackager_exchange_eq
    (sets : List URLSet) (o : Oracles) (su : URL) (flag : Bool)
    (fr : FetchResponse) (h2 : Header)
    (hp : parseUrls o.parsedFetch o.parsedSign sets = .ok (su, flag))
    (hf : o.fetchResult = .ok fr)
    (hv : validateFetch fr o.cacheCheck = none)
    (hs : sanitizeStateful flag statefulResponseHeaders fr.header = .ok h2) :
    ∀ ex, (servePackager sets o).exchange = some ex →
      ex.requestUri = su ∧ ex.responseStatus = fr.statusCode ∧
      ex.responseHeader = h2 ∧ ex.payload = fr.body.take maxBodyLength := by
  intro ex hexch
  cases hro : o.readBodyOk with
  | false =>
    simp [servePackager, hp, hf, hv, hs, hro] at hexch
  | true =>
    cases hne : o.newExchangeErr with
    | some m =>
      simp [servePackager, hp, hf, hv, hs, hro, hne] at hexch
    | none =>
      cases hcu : o.certUrlResult with
      | error m =>
        simp [servePackager, hp, hf, hv, hs, hro, hne, hcu] at hexch
        cases ex
        simp_all
      | ok cu =>
        cases has : o.addSigErr with
        | some m =>
          simp [servePackager, hp, hf, hv, hs, hro, hne, hcu, has] at hexch
          cases ex
          simp_all
        | none =>
          cases hwe : o.writeErr with
          | some m =>
            simp [servePackager, hp, hf, hv, hs, hro, hne, hcu, has, hwe] at hexch
            cases ex
            simp_all
          | none =>
            simp [servePackager, hp, hf, hv, hs, hro, hne, hcu, has, hwe] at hexch
            cases ex
            simp_all

/-! ## C3: stateful headers -/

/-- C3 amended: with `ErrorOnStatefulHeaders = true` on the matched
fetch pattern, if any of the ten stateful headers is present *with a
non-empty value* (as observed by `Header.Get`) in the upstream
response, the pipeline responds 502 with the canonical body and no
exchange is built; with the flag false, every stateful header is
deleted from the response before it is handed to the exchange builder
(a header present with an empty value is deleted, not rejected). -/
theorem statefulHeaders_amended :
    ∀ (sets : List URLSet) (o : Oracles) (su : URL) (flag : Bool) (fr : FetchResponse),
      parseUrls o.parsedFetch o.parsedSign sets = .ok (su, flag) →
      o.fetchResult = .ok fr →
      validateFetch fr o.cacheCheck = none →
      ((flag = true →
        (∃ name ∈ statefulResponseHeaders, headerGet fr.header name ≠ "") →
        (servePackager sets o).resp.wroteHeader = some 502 ∧
        (servePackager sets o).resp.body = strBytes "502 bad gateway\n" ∧
        (servePackager sets o).exchange = none) ∧
      (flag = false →
        ∀ ex, (servePackager sets o).exchange = some ex →
          ∀ p ∈ ex.responseHeader, p.1 ∉ statefulResponseHeaders)) := by
  intro sets o su flag fr hp hf hv
  constructor
  · intro hflag hex
    subst hflag
    rcases sanitize_true_error statefulResponseHeaders fr.header hex with ⟨name, hsan⟩
    have hred : servePackager sets o =
        ⟨logAndRespond ⟨"Fetch response contains stateful header: " ++ name, 502⟩
            emptyResp, true, none, none⟩ := by
      simp only [servePackager, hp, hf, hv, hsan]
    rw [hred]
    exact ⟨rfl, rfl, rfl⟩
  · intro hflag ex hexch p hpmem hpname
    subst hflag
    have hsanok := sanitize_false_ok statefulResponseHeaders fr.header
    have hcomp := servePackager_exchange_eq sets o su false fr
      (statefulResponseHeaders.foldl headerDel fr.header) hp hf hv hsanok ex hexch
    have hdel := sanitize_ok_deleted false statefulResponseHeaders fr.header
      (statefulResponseHeaders.foldl headerDel fr.header) hsanok
    exact hdel p.1 hpname p (hcomp.2.2.1 ▸ hpmem) rfl

/-- Witness for `statefulHeaders_amended`: `Set-Cookie: x=1` under the
strict fetch pattern yields 502 and no exchange. -/
theorem statefulHeaders_witness :
    (servePackager [exUrlSetStrict] (exOracles [("Set-Cookie", "x=1")])).resp.wroteHeader
        = some 502 ∧
    (servePackager [exUrlSetStrict] (exOracles [("Set-Cookie", "x=1")])).exchange = none := by
  have h := (statefulHeaders_amended [exUrlSetStrict] (exOracles [("Set-Cookie", "x=1")])
      exSignUrl true ⟨200, [("Set-Cookie", "x=1")], [1, 2, 3]⟩ rfl rfl rfl).1 rfl
      ⟨"Set-Cookie", by decide, by decide⟩
  exact ⟨h.1, h.2.2⟩

/-- C3 as stated is false: a stateful header *present* but with an
empty value (here `Set-Cookie:`) does not trigger the 502 even under
`ErrorOnStatefulHeaders = true` — `Header.Get` returns `""` for it, so
the pipeline deletes it and produces a signed exchange with a 200
response. -/
theorem statefulHeaders_counterexample :
    ("Set-Cookie", "") ∈ ([("Set-Cookie", "")] : Header) ∧
    "Set-Cookie" ∈ statefulResponseHeaders ∧
    exUrlSetStrict.Fetch.ErrorOnStatefulHeaders = true ∧
    (exOracles [("Set-Cookie", "")]).fetchResult =
      .ok ⟨200, [("Set-Cookie", "")], [1, 2, 3]⟩ ∧
    (servePackager [exUrlSetStrict] (exOracles [("Set-Cookie", "")])).resp.wroteHeader
      = some 200 ∧
    (servePackager [exUrlSetStrict] (exOracles [("Set-Cookie", "")])).exchange.isSome
      = true := by
  refine ⟨by decide, by decide, by decide, rfl, rfl, rfl⟩

/-! ## C6: the body cap -/

/-- C6: the exchange builder reads at most `maxBodyLength = 4 MiB` of
the upstream body: the payload handed to `NewExchange` is always
`body.take maxBodyLength`, a body of at most 4 MiB is included in
full, a longer body is truncated to its first 4 MiB, and an over-cap
body causes no error — when every collaborator succeeds the pipeline
still responds 200 regardless of the body length. -/
theorem bodyTruncation_spec :
    maxBodyLength = 4 * 2 ^ 20 ∧
    (∀ (sets : List URLSet) (o : Oracles) (su : URL) (flag : Bool)
        (fr : FetchResponse) (h2 : Header) (cu : String),
      parseUrls o.parsedFetch o.parsedSign sets = .ok (su, flag) →
      o.fetchResult = .ok fr →
      validateFetch fr o.cacheCheck = none →
      sanitizeStateful flag statefulResponseHeaders fr.header = .ok h2 →
      o.readBodyOk = true →
      o.newExchangeErr = none →
      o.certUrlResult = .ok cu →
      o.addSigErr = none →
      o.writeErr = none →
      (servePackager sets o).resp.wroteHeader = some 200 ∧
      (servePackager sets o).exchange =
        some ⟨su, fr.statusCode, h2, fr.body.take maxBodyLength⟩) ∧
    (∀ b : List Nat, b.length ≤ maxBodyLength → b.take maxBodyLength = b) ∧
    (∀ b : List Nat, maxBodyLength < b.length →
      (b.take maxBodyLength).length = maxBodyLength) := by
  refine ⟨by decide, ?_, ?_, ?_⟩
  · intro sets o su flag fr h2 cu hp hf hv hs hro hne hcu has hwe
    have hred : servePackager sets o =
        ⟨respWrite (setContentType emptyResp "application/signed-exchange;v=b0")
            o.writeBytes, true,
         some ⟨su, fr.statusCode, h2, fr.body.take maxBodyLength⟩,
         some (mkSigner o.now cu)⟩ := by
      simp only [servePackager, hp, hf, hv, hs, hro, hne, hcu, has, hwe]
    rw [hred]
    exact ⟨rfl, rfl⟩
  · intro b hb
    exact List.take_of_length_le hb
  · intro b hb
    rw [List.length_take]
    omega

/-- Witness for `bodyTruncation_spec`: a short body passes unchanged
through a successful pipeline run, and a body one byte over the cap is
cut to exactly `maxBodyLength` bytes. -/
theorem bodyTruncation_witness :
    List.take maxBodyLength [1, 2, 3] = [1, 2, 3] ∧
    ((List.replicate (maxBodyLength + 1) 0).take maxBodyLength).length = maxBodyLength ∧
    (servePackager [exUrlSetStrict] (exOracles [])).exchange =
      some ⟨exSignUrl, 200, [], List.take maxBodyLength [1, 2, 3]⟩ ∧
    (servePackager [exUrlSetStrict] (exOracles [])).resp.wroteHeader = some 200 := by
  refine ⟨?_, ?_, ?_, ?_⟩
  · exact bodyTruncation_spec.2.2.1 [1, 2, 3] (by decide)
  · exact bodyTruncation_spec.2.2.2 _
      (by rw [List.length_replicate]; exact Nat.lt_succ_self _)
  · exact (bodyTruncation_spec.2.1 [exUrlSetStrict] (exOracles []) exSignUrl true
      ⟨200, [], [1, 2, 3]⟩ [] "https://pkg.example/amppkg/cert/x"
      rfl rfl rfl rfl rfl rfl rfl rfl rfl).2
  · exact (bodyTruncation_spec.2.1 [exUrlSetStrict] (exOracles []) exSignUrl true
      ⟨200, [], [1, 2, 3]⟩ [] "https://pkg.example/amppkg/cert/x"
      rfl rfl rfl rfl rfl rfl rfl rfl rfl).1

/-! ## C9: the serialization-failure branch -/

/-- Oracle outcomes for a request whose `WriteExchangeFile` call fails
after writing the partial prefix `[7, 8]` into the buffer. -/
def exO9 : Oracles :=
  { exOracles [] with writeErr := some "boom", writeBytes := [7, 8] }

/-- C9 is a code bug (main.go lines 396–399): the serialization-failure
branch calls `LogAndRespond` but is missing a `return`, so after the
500 status and canonical message the handler falls through and appends
the partial buffer contents (`[7, 8]` here) to the client response —
the body is *not* exactly the canonical message, contrary to both the
claim and the surrounding error-handling convention of the source. -/
theorem serializeFailure_bug :
    exO9.writeErr = some "boom" ∧
    (servePackager [exUrlSetStrict] exO9).resp.wroteHeader = some 500 ∧
    (servePackager [exUrlSetStrict] exO9).resp.body =
      strBytes "500 internal server error\n" ++ [7, 8] ∧
    (servePackager [exUrlSetStrict] exO9).resp.body ≠
      strBytes "500 internal server error\n" := by
  refine ⟨rfl, rfl, by decide, by decide⟩

/-! ## SHA-256 (FIPS 180-4), words as naturals reduced mod 2^32 -/

/-- Truncate to a 32-bit word. -/
def w32 (x : Nat) : Nat := x % 4294967296

/-- Right rotation of a 32-bit word. -/
def rotr32 (x n : Nat) : Nat := ((x >>> n) ||| (x <<< (32 - n))) % 4294967296

def bSig0 (x : Nat) : Nat := rotr32 x 2 ^^^ rotr32 x 13 ^^^ rotr32 x 22

def bSig1 (x : Nat) : Nat := rotr32 x 6 ^^^ rotr32 x 11 ^^^ rotr32 x 25

def sSig0 (x : Nat) : Nat := rotr32 x 7 ^^^ rotr32 x 18 ^^^ (x >>> 3)

def sSig1 (x : Nat) : Nat := rotr32 x 17 ^^^ rotr32 x 19 ^^^ (x >>> 10)

def chF (x y z : Nat) : Nat := (x &&& y) ^^^ ((x ^^^ 4294967295) &&& z)

def majF (x y z : Nat) : Nat := (x &&& y) ^^^ (x &&& z) ^^^ (y &&& z)

/-- The 64 SHA-256 round constants. -/
def sha256K : List Nat :=
  [1116352408, 1899447441, 3049323471, 3921009573, 961987163,
   1508970993, 2453635748, 2870763221, 3624381080, 310598401,
   607225278, 1426881987, 1925078388, 2162078206, 2614888103,
   3248222580, 3835390401, 4022224774, 264347078, 604807628,
   770255983, 1249150122, 1555081692, 1996064986, 2554220882,
   2821834349, 2952996808, 3210313671, 3336571891, 3584528711,
   113926993, 338241895, 666307205, 773529912, 1294757372,
   1396182291, 1695183700, 1986661051, 2177026350, 2456956037,
   2730485921, 2820302411, 3259730800, 3345764771, 3516065817,
   3600352804, 4094571909, 275423344, 430227734, 506948616,
   659060556, 883997877, 958139571, 1322822218, 1537002063,
   1747873779, 1955562222, 2024104815, 2227730452, 2361852424,
   2428436474, 2756734187, 3204031479, 3329325298]

/-- The initial SHA-256 hash state. -/
def sha256Init : List Nat :=
  [1779033703, 3144134277, 1013904242, 2773480762, 1359893119,
   2600822924, 528734635, 1541459225]

/-- SHA-256 message padding: a `0x80` byte, zeros to 56 mod 64, then
the bit length as 8 big-endian bytes. -/
def sha256Pad (msg : List Nat) : List Nat :=
  let bitLen := msg.length * 8
  let padLen := (119 - msg.length % 64) % 64
  msg ++ [128] ++ List.replicate padLen 0 ++
    [(bitLen >>> 56) % 256, (bitLen >>> 48) % 256, (bitLen >>> 40) % 256,
     (bitLen >>> 32) % 256, (bitLen >>> 24) % 256, (bitLen >>> 16) % 256,
     (bitLen >>> 8) % 256, bitLen % 256]

/-- Big-endian bytes to 32-bit words. -/
def toWords : List Nat → List Nat
  | a :: b :: c :: d :: rest => ((a <<< 24) ||| (b <<< 16) ||| (c <<< 8) ||| d) :: toWords rest
  | _ => []

/-- Split into 64-byte blocks.  Fuelled so that the kernel can reduce
it; each step consumes at least one byte, so `l.length` steps always
suffice. -/
def toBlocksAux : Nat → List Nat → List (List Nat)
  | 0, _ => []
  | _, [] => []
  | fuel+1, l => l.take 64 :: toBlocksAux fuel (l.drop 64)

/-- Split into 64-byte blocks. -/
def toBlocks (l : List Nat) : List (List Nat) := toBlocksAux l.length l

/-- Extend 16 schedule words to 64. -/
def extendW (w : List Nat) : List Nat :=
  (List.range 48).foldl
    (fun w _ =>
      w ++ [w32 (sSig1 (w.getD (w.length - 2) 0) + w.getD (w.length - 7) 0 +
        sSig0 (w.getD (w.length - 15) 0) + w.getD (w.length - 16) 0)]) w

/-- One SHA-256 compression round. -/
def sha256Round (st : List Nat) (k : Nat) (wt : Nat) : List Nat :=
  let a := st.getD 0 0
  let b := st.getD 1 0
  let c := st.getD 2 0
  let d := st.getD 3 0
  let e := st.getD 4 0
  let f := st.getD 5 0
  let g := st.getD 6 0
  let h := st.getD 7 0
  let t1 := w32 (h + bSig1 e + chF e f g + k + wt)
  let t2 := w32 (bSig0 a + majF a b c)
  [w32 (t1 + t2), a, b, c, w32 (d + t1), e, f, g]

/-- Compress one 64-byte block into the hash state. -/
def processBlock (hs : List Nat) (block : List Nat) : List Nat :=
  let w := extendW (toWords block)
  let st := (sha256K.zip w).foldl (fun st kw => sha256Round st kw.1 kw.2) hs
  List.zipWith (fun x y => w32 (x + y)) hs st

/-- Hash state words to big-endian bytes. -/
def wordsToBytes (hs : List Nat) : List Nat :=
  hs.foldr (fun h acc =>
    (h >>> 24) % 256 :: (h >>> 16) % 256 :: (h >>> 8) % 256 :: h % 256 :: acc) []

/-- SHA-256 of a byte sequence (the external `crypto/sha256`
collaborator, implemented concretely here). -/
def sha256 (msg : List Nat) : List Nat :=
  wordsToBytes ((toBlocks (sha256Pad msg)).foldl processBlock sha256Init)

/-! ## Url-safe base64 (`base64.URLEncoding`, with padding) -/

/-- The url-safe base64 alphabet. -/
def base64urlAlphabet : List Char :=
  "ABCDEFGHIJKLMNOPQRSTUVWXYZabcdefghijklmnopqrstuvwxyz0123456789-_".toList

/-- Sextet to alphabet character. -/
def encodeChar (n : Nat) : Char := base64urlAlphabet.getD n 'A'

/-- Alphabet character back to its sextet. -/
def decodeChar (c : Char) : Option Nat :=
  base64urlAlphabet.findIdx? (fun x => x = c)

/-- Url-safe base64 encoding with `=` padding, three input bytes per
four output characters. -/
def base64urlEncode : List Nat → List Char
  | [] => []
  | [b1] => [encodeChar (b1 / 4), encodeChar (b1 % 4 * 16), '=', '=']
  | [b1, b2] =>
      [encodeChar (b1 / 4), encodeChar (b1 % 4 * 16 + b2 / 16),
       encodeChar (b2 % 16 * 4), '=']
  | b1 :: b2 :: b3 :: rest =>
      encodeChar (b1 / 4) :: encodeChar (b1 % 4 * 16 + b2 / 16) ::
      encodeChar (b2 % 16 * 4 + b3 / 64) :: encodeChar (b3 % 64) ::
      base64urlEncode rest

/-- Url-safe base64 decoding: four characters per group, `=` padding
only in the final group, any character outside the alphabet rejected. -/
def base64urlDecode : List Char → Option (List Nat)
  | [] => some []
  | c1 :: c2 :: c3 :: c4 :: rest =>
    (match decodeChar c1, decodeChar c2 with
     | some s1, some s2 =>
       if c3 = '=' then
         if c4 = '=' then
           if rest = [] then some [s1 * 4 + s2 / 16] else none
         else none
       else
         match decodeChar c3 with
         | some s3 =>
           if c4 = '=' then
             if rest = [] then some [s1 * 4 + s2 / 16, s2 % 16 * 16 + s3 / 4]
             else none
           else
             match decodeChar c4 with
             | some s4 =>
               match base64urlDecode rest with
               | some bs =>
                   some ((s1 * 4 + s2 / 16) :: (s2 % 16 * 16 + s3 / 4) ::
                     (s3 % 4 * 64 + s4) :: bs)
               | none => none
             | none => none
         | none => none
     | _, _ => none)
  | _ => none

/-! ## Base64 round trip and SHA-256 shape lemmas -/

theorem decodeChar_encodeChar : ∀ s, s < 64 → decodeChar (encodeChar s) = some s := by
  decide

theorem encodeChar_ne_pad : ∀ s, s < 64 → ¬(encodeChar s = '=') := by
  decide

theorem base64url_decode_encode :
    ∀ bs : List Nat, (∀ b ∈ bs, b < 256) →
      base64urlDecode (base64urlEncode bs) = some bs
  | [], _ => rfl
  | [b1], h => by
    have hb1 : b1 < 256 := h b1 (by simp)
    have h1 : b1 / 4 < 64 := by omega
    have h2 : b1 % 4 * 16 < 64 := by omega
    simp only [base64urlEncode, base64urlDecode]
    simp [decodeChar_encodeChar _ h1, decodeChar_encodeChar _ h2]
    omega
  | [b1, b2], h => by
    have hb1 : b1 < 256 := h b1 (by simp)
    have hb2 : b2 < 256 := h b2 (by simp)
    have h1 : b1 / 4 < 64 := by omega
    have h2 : b1 % 4 * 16 + b2 / 16 < 64 := by omega
    have h3 : b2 % 16 * 4 < 64 := by omega
    simp only [base64urlEncode, base64urlDecode]
    simp [decodeChar_encodeChar _ h1, decodeChar_encodeChar _ h2,
      decodeChar_encodeChar _ h3, encodeChar_ne_pad _ h3]
    omega
  | b1 :: b2 :: b3 :: rest, h => by
    have ih := base64url_decode_encode rest (fun b hb => h b (by simp [hb]))
    have hb1 : b1 < 256 := h b1 (by simp)
    have hb2 : b2 < 256 := h b2 (by simp)
    have hb3 : b3 < 256 := h b3 (by simp)
    have h1 : b1 / 4 < 64 := by omega
    have h2 : b1 % 4 * 16 + b2 / 16 < 64 := by omega
    have h3 : b2 % 16 * 4 + b3 / 64 < 64 := by omega
    have h4 : b3 % 64 < 64 := by omega
    simp only [base64urlEncode, base64urlDecode]
    simp [decodeChar_encodeChar _ h1, decodeChar_encodeChar _ h2,
      decodeChar_encodeChar _ h3, decodeChar_encodeChar _ h4,
      encodeChar_ne_pad _ h3, encodeChar_ne_pad _ h4, ih]
    omega

theorem sha256Round_length (st : List Nat) (k wt : Nat) :
    (sha256Round st k wt).length = 8 := rfl

theorem foldl_round_length (l : List (Nat × Nat)) (st : List Nat) (h : st.length = 8) :
    (l.foldl (fun st kw => sha256Round st kw.1 kw.2) st).length = 8 := by
  induction l generalizing st with
  | nil => exact h
  | cons p t ih => exact ih _ rfl

theorem processBlock_length (hs b : List Nat) (h : hs.length = 8) :
    (processBlock hs b).length = 8 := by
  simp [processBlock, List.length_zipWith, h, foldl_round_length _ _ h]

theorem foldl_blocks_length (bl : List (List Nat)) (hs : List Nat) (h : hs.length = 8) :
    (bl.foldl processBlock hs).length = 8 := by
  induction bl generalizing hs with
  | nil => exact h
  | cons b t ih => exact ih _ (processBlock_length _ _ h)

theorem wordsToBytes_cons (w : Nat) (t : List Nat) :
    wordsToBytes (w :: t) =
      (w >>> 24) % 256 :: (w >>> 16) % 256 :: (w >>> 8) % 256 :: w % 256 ::
        wordsToBytes t := rfl

theorem wordsToBytes_length : ∀ hs : List Nat, (wordsToBytes hs).length = 4 * hs.length
  | [] => rfl
  | w :: t => by
    rw [wordsToBytes_cons]
    simp only [List.length_cons, wordsToBytes_length t]
    omega

theorem wordsToBytes_lt : ∀ hs : List Nat, ∀ b ∈ wordsToBytes hs, b < 256
  | [] => by intro b hb; exact absurd hb (by simp [wordsToBytes])
  | w :: t => by
    intro b hb
    rw [wordsToBytes_cons] at hb
    simp only [List.mem_cons] at hb
    rcases hb with h | h | h | h | h
    · omega
    · omega
    · omega
    · omega
    · exact wordsToBytes_lt t b h

theorem sha256_length (msg : List Nat) : (sha256 msg).length = 32 := by
  have h8 : ((toBlocks (sha256Pad msg)).foldl processBlock sha256Init).length = 8 :=
    foldl_blocks_length _ _ rfl
  simp [sha256, wordsToBytes_length, h8]

theorem sha256_lt (msg : List Nat) : ∀ b ∈ sha256 msg, b < 256 :=
  wordsToBytes_lt _

/-! ## Certificate naming and the certificate publisher -/

/-- A parsed X.509 certificate, reduced to the field the core reads:
its raw DER bytes (`cert.Raw`). -/
structure Certificate where
  raw : List Nat
deriving DecidableEq

/-- `certName` from main.go: the url-safe base64 of SHA-256 over the
leaf's DER bytes. -/
def certName (cert : Certificate) : String :=
  String.mk (base64urlEncode (sha256 cert.raw))

/-- `certUrlPrefix` from main.go (named with a `Str` suffix here). -/
def certUrlPrefixStr : String := "amppkg/cert"

/-- `CertCache` from main.go. -/
structure CertCache where
  certName : String
  certMessage : List Nat
deriving DecidableEq

/-- `newCertCache` from main.go: stores the cert's name and the CBOR
cert message; `certurl.CertificateMessageFromPEM` is an external
collaborator whose outcome is supplied as `certMsgResult`. -/
def newCertCache (cert : Certificate) (certMsgResult : Except String (List Nat)) :
    Except String CertCache :=
  match certMsgResult with
  | .error e => .error e
  | .ok m => .ok ⟨certName cert, m⟩

/-- The client-visible pieces of a certificate-publisher response. -/
structure CertServeResponse where
  status : Nat
  contentType : Option String
  etag : Option String
  body : List Nat
deriving DecidableEq

/-- `CertCache.ServeHTTP` from main.go: the request path is compared to
`path.Join("/", certUrlPrefix, certName)`; since the base64url name
contains neither `/` nor `.`, the join is plain concatenation.  On a
hit it serves the cert message with `Content-Type
application/tls-cert-chain` and the quoted name as `ETag`
(`http.ServeContent` sends 200 for a plain GET); otherwise
`http.NotFound` sends 404. -/
def certCacheServe (cc : CertCache) (reqPath : String) : CertServeResponse :=
  if reqPath = "/" ++ certUrlPrefixStr ++ "/" ++ cc.certName then
    ⟨200, some "application/tls-cert-chain",
     some ("\"" ++ cc.certName ++ "\""), cc.certMessage⟩
  else
    ⟨404, some "text/plain; charset=utf-8", none, strBytes "404 page not found\n"⟩

/-- C7: the certificate publisher serves 200 exactly on the path
`/amppkg/cert/<CertName>` for the configured leaf (any other path
yields 404); the hit response carries `Content-Type
application/tls-cert-chain`, an `ETag` equal to the CertName wrapped in
double quotes — the path segment after the prefix, which is the
url-safe base64 of SHA-256 of the leaf DER — and the precomputed
CertMessage as body. -/
theorem certCacheServe_spec :
    ∀ (cert : Certificate) (msg : List Nat) (cc : CertCache),
      newCertCache cert (.ok msg) = .ok cc →
      (cc.certName = certName cert ∧ cc.certMessage = msg) ∧
      (∀ p, (certCacheServe cc p).status = 200 ↔
        p = "/" ++ certUrlPrefixStr ++ "/" ++ certName cert) ∧
      (∀ p, p ≠ "/" ++ certUrlPrefixStr ++ "/" ++ certName cert →
        (certCacheServe cc p).status = 404) ∧
      certCacheServe cc ("/" ++ certUrlPrefixStr ++ "/" ++ certName cert) =
        ⟨200, some "application/tls-cert-chain",
         some ("\"" ++ certName cert ++ "\""), msg⟩ ∧
      certName cert = String.mk (base64urlEncode (sha256 cert.raw)) := by
  intro cert msg cc hcc
  simp only [newCertCache, Except.ok.injEq] at hcc
  subst hcc
  refine ⟨⟨rfl, rfl⟩, ?_, ?_, ?_, rfl⟩
  · intro p
    by_cases hp : p = "/" ++ certUrlPrefixStr ++ "/" ++ certName cert
    · simp [certCacheServe, hp]
    · simp [certCacheServe, hp]
  · intro p hp
    simp [certCacheServe, hp]
  · simp [certCacheServe]

set_option maxRecDepth 100000 in
/-- Witness for `certCacheServe_spec` at a concrete certificate: the
content-addressed path serves the precomputed message and a wrong path
under the prefix yields 404. -/
theorem certCacheServe_witness :
    certCacheServe ⟨certName ⟨[1, 2, 3]⟩, [5, 6]⟩
        ("/" ++ certUrlPrefixStr ++ "/" ++ certName ⟨[1, 2, 3]⟩) =
      ⟨200, some "application/tls-cert-chain",
       some ("\"" ++ certName ⟨[1, 2, 3]⟩ ++ "\""), [5, 6]⟩ ∧
    (certCacheServe ⟨certName ⟨[1, 2, 3]⟩, [5, 6]⟩ "/amppkg/cert/wrong").status = 404 := by
  constructor
  · exact (certCacheServe_spec ⟨[1, 2, 3]⟩ [5, 6] ⟨certName ⟨[1, 2, 3]⟩, [5, 6]⟩
      rfl).2.2.2.1
  · exact (certCacheServe_spec ⟨[1, 2, 3]⟩ [5, 6] ⟨certName ⟨[1, 2, 3]⟩, [5, 6]⟩
      rfl).2.2.1 "/amppkg/cert/wrong" (by decide)

/-- C8: `CertName(cert)` is the url-safe base64 of SHA-256 over the
cert's raw DER bytes; decoding it from url-safe base64 recovers exactly
the 32-byte SHA-256 digest (round trip). -/
theorem certName_roundtrip :
    ∀ cert : Certificate,
      certName cert = String.mk (base64urlEncode (sha256 cert.raw)) ∧
      (sha256 cert.raw).length = 32 ∧
      base64urlDecode (certName cert).toList = some (sha256 cert.raw) := by
  intro cert
  refine ⟨rfl, sha256_length _, ?_⟩
  have hdata : (certName cert).toList = base64urlEncode (sha256 cert.raw) := rfl
  rw [hdata, base64url_decode_encode _ (sha256_lt _)]
